import Mathlib

/-!
# Technologic Systems companion MCU: transport, watchdog and power-input drivers

A shallow embedding of

* `drivers/mfd/ts-mcu-core.c`      (`ts_mcu_address`, `ts_mcu_transfer`),
* `drivers/watchdog/ts_wdt.c`      (`ts_wdt_write`, the keep-alive work, the
  watchdog operations and `ts_wdt_probe`),
* `drivers/power/supply/ts-mcu-psu.c` (`ts_psu_read_voltage_in`),

followed by the properties established for them.

Conventions.  C `int` results are `Int`; unsigned machine words are `Nat` with
an explicit reduction where the C type truncates.  A loop whose trip count is
not bounded by the types is run with a fuel argument; `none` means that the
fuel ran out or that the loop stored outside the array it was handed.
-/

namespace TsMcu

/-! ## Data model -/

/-- One `struct i2c_msg`: slave address, flag word, length and the bytes that
`buf` points to. -/
structure i2c_msg where
  addr : Nat
  flags : Nat
  len : Nat
  buf : List Nat
deriving DecidableEq, Repr

/-- The `I2C_M_RD` bit of the flag word. -/
def I2C_M_RD : Nat := 1

/-- The bus adapter behind `mcu->client->adapter`.  `i2c_transfer` belongs to
the I2C core and is not part of the driver sources, so the behaviour of the bus
is a parameter: `xfer k msgs num` is what the `k`-th transfer on this adapter
answers when handed `msgs` and `num` (the `int` result and the messages with
the buffers as the bus left them).  `log` records, oldest first, what every
transfer so far was handed. -/
structure i2c_adapter where
  xfer : Nat → List i2c_msg → Int → Int × List i2c_msg
  log : List (List i2c_msg × Int)

/-- The call `i2c_transfer(adapter, msgs, num)`: ask the bus, record the call. -/
def i2c_transfer (a : i2c_adapter) (msgs : List i2c_msg) (num : Int) :
    Int × List i2c_msg × i2c_adapter :=
  let r := a.xfer a.log.length msgs num
  (r.1, r.2, { a with log := a.log ++ [(msgs, num)] })

/-- The part of `struct ts_mcu_dev` the transfers use: `client->addr` and
`client->adapter`. -/
structure ts_mcu_dev where
  client_addr : Nat
  adapter : i2c_adapter

/-! ## `ts-mcu-core.c` -/

/-- The loop of `ts_mcu_address`.  `msgs` is the array as seen from the moving
pointer, so `msgs++` is the tail.  Returns the array after the loop and the
number of times the body ran. -/
def ts_mcu_address : Nat → Nat → List i2c_msg → Int → Option (List i2c_msg × Nat)
  | 0, _, _, _ => none
  | fuel + 1, client_addr, msgs, num =>
    if num = 0 then some (msgs, 0)
    else
      match msgs with
      | [] => none
      | m :: rest =>
        match ts_mcu_address fuel client_addr rest (num - 1) with
        | none => none
        | some (rest', n) => some ({ m with addr := client_addr } :: rest', n + 1)

/-- The function `ts_mcu_transfer`: stamp the messages, then hand them and
`num` to `i2c_transfer` and return its result.  The second component is the
caller's message array afterwards, the third the device with its adapter's
history extended. -/
def ts_mcu_transfer (fuel : Nat) (mcu : ts_mcu_dev) (msgs : List i2c_msg) (num : Int) :
    Option (Int × List i2c_msg × ts_mcu_dev) :=
  match ts_mcu_address fuel mcu.client_addr msgs num with
  | none => none
  | some (stamped, _) =>
    let r := i2c_transfer mcu.adapter stamped num
    some (r.1, r.2.1, { mcu with adapter := r.2.2 })

/-! ## `ts_wdt.c` -/

/-- The constant `TS_DEFAULT_TIMEOUT`, in seconds. -/
def TS_DEFAULT_TIMEOUT : Nat := 30

/-- Kernel configuration the driver is compiled against and that is not part
of the driver sources: the tick rate `HZ` and the rounding helper
`round_jiffies_relative`, both taken as parameters. -/
structure kernel_cfg where
  HZ : Nat
  round_jiffies_relative : Nat → Nat

/-- The driver's globals once `wdev` is set up: `wdev->mcu`, the delayed work
`wdev->ping_work` (`none`: not pending; `some d`: pending, queued with a delay
of `d` jiffies), the field `ts_wdt_wdd.timeout`, and the no-way-out status
that `watchdog_set_nowayout` stores in `ts_wdt_wdd`. -/
structure ts_wdt_state where
  mcu : ts_mcu_dev
  ping_work : Option Nat
  timeout : Nat
  nowayout : Bool

/-- Modelled from the spec: `schedule_delayed_work` is workqueue code outside
the driver sources.  It makes the work pending with the given delay; a work
item that is already pending is left as it is. -/
def schedule_delayed_work (w : Option Nat) (delay : Nat) : Option Nat :=
  match w with
  | some d => some d
  | none => some delay

/-- Modelled from the spec: `cancel_delayed_work_sync` is workqueue code
outside the driver sources.  When it returns the work is not pending. -/
def cancel_delayed_work_sync (_w : Option Nat) : Option Nat := none

/-- The three bytes `out[0..2]` that `ts_wdt_write` builds from its `u16`
argument; each store into the `u8` array truncates to eight bits. -/
def ts_wdt_out (deciseconds : Nat) : List Nat :=
  [0, ((deciseconds &&& 0xff00) >>> 8) % 256, (deciseconds &&& 0xff) % 256]

/-- The message `msg` of `ts_wdt_write` as it is handed to `ts_mcu_transfer`.
Its `addr` field is left uninitialised by the source (written here as 0);
`ts_mcu_address` overwrites it before the bus sees the message. -/
def ts_wdt_msg (deciseconds : Nat) : i2c_msg :=
  { addr := 0, flags := 0, len := 3, buf := ts_wdt_out deciseconds }

/-- The function `ts_wdt_write`.  The argument is converted to `u16` on entry;
the result is the C value `!ret`. -/
def ts_wdt_write (fuel : Nat) (s : ts_wdt_state) (deciseconds : Nat) :
    Option (Int × ts_wdt_state) :=
  let d := deciseconds % 65536
  match ts_mcu_transfer fuel s.mcu [ts_wdt_msg d] 1 with
  | none => none
  | some (ret, _, mcu') => some (if ret = 0 then 1 else 0, { s with mcu := mcu' })

/-- The function `ts_wdt_ping_enable`: feed for the default timeout, ignore the
outcome, queue the delayed work. -/
def ts_wdt_ping_enable (k : kernel_cfg) (fuel : Nat) (s : ts_wdt_state) :
    Option ts_wdt_state :=
  match ts_wdt_write fuel s (TS_DEFAULT_TIMEOUT * 10) with
  | none => none
  | some (_, s1) =>
    some { s1 with
      ping_work := schedule_delayed_work s1.ping_work
        (k.round_jiffies_relative (TS_DEFAULT_TIMEOUT * k.HZ / 2)) }

/-- The function `ts_wdt_ping_disable`: feed for the default timeout, ignore
the outcome, cancel the delayed work. -/
def ts_wdt_ping_disable (fuel : Nat) (s : ts_wdt_state) : Option ts_wdt_state :=
  match ts_wdt_write fuel s (TS_DEFAULT_TIMEOUT * 10) with
  | none => none
  | some (_, s1) => some { s1 with ping_work := cancel_delayed_work_sync s1.ping_work }

/-- The function `ts_wdt_start`.  `wdt->timeout * 10` is an `unsigned int`
product. -/
def ts_wdt_start (fuel : Nat) (s : ts_wdt_state) : Option (Int × ts_wdt_state) :=
  match ts_wdt_ping_disable fuel s with
  | none => none
  | some s1 => ts_wdt_write fuel s1 ((s1.timeout * 10) % 2 ^ 32)

/-- The function `ts_wdt_stop`. -/
def ts_wdt_stop (fuel : Nat) (s : ts_wdt_state) : Option (Int × ts_wdt_state) :=
  ts_wdt_write fuel s 3

/-- The function `ts_set_timeout`. -/
def ts_set_timeout (s : ts_wdt_state) (timeout : Nat) : Int × ts_wdt_state :=
  (0, { s with timeout := timeout })

/-- The function `ts_wdt_ping_work`, the body of the delayed work. -/
def ts_wdt_ping_work (k : kernel_cfg) (fuel : Nat) (s : ts_wdt_state) :
    Option ts_wdt_state :=
  ts_wdt_ping_enable k fuel s

/-- The bounds `min_timeout` and `max_timeout` declared in `ts_wdt_wdd`. -/
def ts_wdt_wdd_min_timeout : Nat := 1

/-- See `ts_wdt_wdd_min_timeout`. -/
def ts_wdt_wdd_max_timeout : Nat := 6553

/-- The failure of a set-timeout request, in the words of the spec. -/
inductive wdt_error where
  | InvalidTimeout
deriving DecidableEq, Repr

/-- Modelled from the spec: the set-timeout entry of the watchdog core, which
calls the operation `ts_wdt_ops.set_timeout` and is not among the driver
sources.  A value outside the bounds declared in `ts_wdt_wdd` fails with
`InvalidTimeout` before the operation is called and nothing changes; a value
inside them is handed to `ts_set_timeout`. -/
def watchdog_set_timeout (s : ts_wdt_state) (seconds : Nat) :
    Except wdt_error Int × ts_wdt_state :=
  if ts_wdt_wdd_min_timeout ≤ seconds ∧ seconds ≤ ts_wdt_wdd_max_timeout then
    (Except.ok (ts_set_timeout s seconds).1, (ts_set_timeout s seconds).2)
  else (Except.error wdt_error.InvalidTimeout, s)

/-- The errno values used by `ts_wdt_probe`. -/
def EALREADY : Int := 114

/-- See `EALREADY`. -/
def ENOMEM : Int := 12

/-- The function `ts_wdt_probe`.  `wdev_set` says whether the global `wdev` is
already non-null, `alloc_ok` whether `devm_kzalloc` succeeds, `register_err` is
what `watchdog_register_device` returns, `nowayout` the module parameter.  The
second component is the driver state when `wdev` was set up by this call. -/
def ts_wdt_probe (k : kernel_cfg) (fuel : Nat) (wdev_set alloc_ok : Bool)
    (register_err : Int) (nowayout : Bool) (mcu : ts_mcu_dev) :
    Option (Int × Option ts_wdt_state) :=
  if wdev_set then some (-EALREADY, none)
  else if !alloc_ok then some (-ENOMEM, none)
  else
    let s : ts_wdt_state :=
      { mcu := mcu, ping_work := none, timeout := TS_DEFAULT_TIMEOUT, nowayout := nowayout }
    if register_err ≠ 0 then some (register_err, some s)
    else
      match ts_wdt_ping_enable k fuel s with
      | none => none
      | some s1 => some (0, some s1)

/-- What can happen to the driver after probing: the watchdog core calls one of
the three operations, or the timer of the delayed work expires. -/
inductive wdt_event where
  | start
  | stop
  | set_timeout (timeout : Nat)
  | wake
deriving DecidableEq, Repr

/-- One step of the driver.  An expired timer runs `ts_wdt_ping_work` only when
the work is pending, and the work stops being pending when it starts to run;
with nothing pending no work runs. -/
def wdt_step (k : kernel_cfg) (fuel : Nat) (s : ts_wdt_state) :
    wdt_event → Option ts_wdt_state
  | .start => (ts_wdt_start fuel s).map Prod.snd
  | .stop => (ts_wdt_stop fuel s).map Prod.snd
  | .set_timeout t => some (ts_set_timeout s t).2
  | .wake =>
    match s.ping_work with
    | none => some s
    | some _ => ts_wdt_ping_work k fuel { s with ping_work := none }

/-- Run a sequence of events, oldest first. -/
def wdt_run (k : kernel_cfg) (fuel : Nat) : ts_wdt_state → List wdt_event → Option ts_wdt_state
  | s, [] => some s
  | s, e :: es =>
    match wdt_step k fuel s e with
    | none => none
    | some s1 => wdt_run k fuel s1 es

/-- The payloads of the messages the bus has been handed so far, oldest first. -/
def wire (s : ts_wdt_state) : List (List Nat) :=
  (s.mcu.adapter.log.map (fun c => c.1.map (fun m => m.buf))).flatten

/-- The bus call that carries the command value `v` to the MCU at `addr`, in
the words of the wire protocol: one write message (flags 0) of three bytes, a
zero byte followed by `v` as a big-endian 16-bit number. -/
def wdt_frame (addr v : Nat) : List i2c_msg × Int :=
  ([{ addr := addr, flags := 0, len := 3, buf := [0, v >>> 8, v &&& 0xff] }], 1)

/-! ## `ts-mcu-psu.c` -/

/-- Reduce an integer to the range of a 32-bit `int` (two's complement; the
kernel is built with wrapping signed arithmetic). -/
def wrap_int32 (x : Int) : Int := (x + 2 ^ 31) % 2 ^ 32 - 2 ^ 31

/-- The expression `(((raw[3] << 8) | raw[2]) * 4203336) / 100` over `int`; the
elements of `raw` are `u8`, and `/` truncates towards zero. -/
def ts_psu_decode (raw : List Nat) : Int :=
  (wrap_int32 (((((raw.getD 3 0 % 256) <<< 8) ||| (raw.getD 2 0 % 256) : Nat) : Int) * 4203336)).tdiv 100

/-- The function `ts_psu_read_voltage_in`.  `value` is the content of `*value`
on entry; the result is the return value and the content of `*value` on return.
The array `raw` is uninitialised on entry (written here as four zero bytes) and
is what the bus left in the message's buffer afterwards. -/
def ts_psu_read_voltage_in (fuel : Nat) (mcu : ts_mcu_dev) (value : Int) :
    Option (Int × Int × ts_mcu_dev) :=
  let msg : i2c_msg := { addr := 0, flags := I2C_M_RD, len := 4, buf := [0, 0, 0, 0] }
  match ts_mcu_transfer fuel mcu [msg] 1 with
  | none => none
  | some (ret, msgs, mcu') =>
    let raw := match msgs with
      | m :: _ => m.buf
      | [] => msg.buf
    if ret ≠ 1 then some (ret, value, mcu')
    else some (ret, ts_psu_decode raw, mcu')

/-! ## Sample inputs -/

/-- A bus on which every transfer of one message succeeds and a read returns
the bytes `rx`. -/
def bus_ok (rx : List Nat) : i2c_adapter :=
  { xfer := fun _ msgs _ =>
      (1, msgs.map (fun m => if m.flags = I2C_M_RD then { m with buf := rx } else m))
    log := [] }

/-- A bus on which every transfer fails with the result `r`. -/
def bus_fail (r : Int) : i2c_adapter :=
  { xfer := fun _ msgs _ => (r, msgs), log := [] }

/-- A configuration with 100 ticks per second and no rounding. -/
def cfg100 : kernel_cfg := { HZ := 100, round_jiffies_relative := fun j => j }

/-- A probed driver on a working bus, MCU at address 0x78, default timeout. -/
def wdt_sample : ts_wdt_state :=
  { mcu := { client_addr := 0x78, adapter := bus_ok [] }
    ping_work := some 1500, timeout := 30, nowayout := false }

/-- A driver state as `ts_wdt_probe` builds it before it enters the keep-alive
mode, on a bus where every transfer fails with -5. -/
def wdt_fresh_failing : ts_wdt_state :=
  { mcu := { client_addr := 0x78, adapter := bus_fail (-5) }
    ping_work := none, timeout := 30, nowayout := false }

/-! ## Transport: addressing -/

/-- With enough fuel and enough messages the loop of `ts_mcu_address` runs
`n` times, stamps the first `n` messages and leaves the rest. -/
theorem ts_mcu_address_eq (addr : Nat) :
    ∀ (n fuel : Nat) (msgs : List i2c_msg), n ≤ msgs.length → n < fuel →
      ts_mcu_address fuel addr msgs (n : Int)
        = some ((msgs.take n).map (fun m => { m with addr := addr }) ++ msgs.drop n, n) := by
  intro n
  induction n with
  | zero =>
    intro fuel msgs _ hf
    obtain ⟨f, rfl⟩ : ∃ f, fuel = f + 1 := ⟨fuel - 1, by omega⟩
    simp [ts_mcu_address]
  | succ n ih =>
    intro fuel msgs hl hf
    obtain ⟨f, rfl⟩ : ∃ f, fuel = f + 1 := ⟨fuel - 1, by omega⟩
    cases msgs with
    | nil => simp at hl
    | cons m rest =>
      have hl' : n ≤ rest.length := by simpa using hl
      have hne : ((n + 1 : Nat) : Int) ≠ 0 := by omega
      have hsub : ((n + 1 : Nat) : Int) - 1 = (n : Int) := by omega
      rw [ts_mcu_address, if_neg hne, hsub, ih f rest hl' (by omega)]
      simp

/-- A negative `num` never reaches zero: the loop of `ts_mcu_address` does not
come to an end for any amount of fuel. -/
theorem ts_mcu_address_negative (addr : Nat) :
    ∀ (fuel : Nat) (msgs : List i2c_msg) (num : Int), num < 0 →
      ts_mcu_address fuel addr msgs num = none := by
  intro fuel
  induction fuel with
  | zero => intro msgs num _; rfl
  | succ f ih =>
    intro msgs num h
    have hne : num ≠ 0 := by omega
    cases msgs with
    | nil => simp [ts_mcu_address, hne]
    | cons m rest => simp [ts_mcu_address, hne, ih rest (num - 1) (by omega)]

/-- More fuel than needed changes nothing: one message is stamped by any fuel
of at least two. -/
theorem ts_mcu_transfer_one (fuel : Nat) (mcu : ts_mcu_dev) (m : i2c_msg) :
    ts_mcu_transfer (fuel + 2) mcu [m] 1
      = some ((mcu.adapter.xfer mcu.adapter.log.length [{ m with addr := mcu.client_addr }] 1).1,
          (mcu.adapter.xfer mcu.adapter.log.length [{ m with addr := mcu.client_addr }] 1).2,
          { mcu with adapter := { mcu.adapter with
              log := mcu.adapter.log ++ [([{ m with addr := mcu.client_addr }], 1)] } }) := by
  have h := ts_mcu_address_eq mcu.client_addr 1 (fuel + 2) [m] (by simp) (by omega)
  simp only [Nat.cast_one] at h
  simp [ts_mcu_transfer, h, i2c_transfer]

/-- C8: for every `num ≥ 0` and every array of at least `num` messages,
`ts_mcu_address` comes to an end after exactly `num` iterations; afterwards each
of the first `num` messages carries the client's bus address with its flags,
length and buffer unchanged, the messages past `num` are untouched, and
`ts_mcu_transfer` hands exactly these messages and the same `num` to the bus
and returns the result of the bus unmodified. -/
theorem ts_mcu_transfer_addresses (fuel : Nat) (mcu : ts_mcu_dev) (msgs : List i2c_msg)
    (num : Nat) (hlen : num ≤ msgs.length) (hfuel : num < fuel) :
    ∃ stamped : List i2c_msg,
      ts_mcu_address fuel mcu.client_addr msgs (num : Int) = some (stamped, num) ∧
      stamped.length = msgs.length ∧
      (∀ i m, i < num → msgs[i]? = some m →
        stamped[i]? = some { addr := mcu.client_addr, flags := m.flags, len := m.len, buf := m.buf }) ∧
      (∀ i, num ≤ i → stamped[i]? = msgs[i]?) ∧
      ts_mcu_transfer fuel mcu msgs (num : Int)
        = some ((mcu.adapter.xfer mcu.adapter.log.length stamped num).1,
            (mcu.adapter.xfer mcu.adapter.log.length stamped num).2,
            { mcu with adapter := { mcu.adapter with
                log := mcu.adapter.log ++ [(stamped, (num : Int))] } }) := by
  have h := ts_mcu_address_eq mcu.client_addr num fuel msgs hlen hfuel
  refine ⟨_, h, ?_, ?_, ?_, ?_⟩
  · simp [List.length_take, List.length_drop]; omega
  · intro i m hi hm
    rw [List.getElem?_append_left (by simp [List.length_take]; omega)]
    simp [List.getElem?_map, List.getElem?_take, hi, hm]
  · intro i hi
    rw [List.getElem?_append_right (by simp [List.length_take]; omega)]
    simp [List.length_take, Nat.min_eq_left hlen, List.getElem?_drop]
    congr 1; omega
  · simp [ts_mcu_transfer, h, i2c_transfer]

/-- Witness for `ts_mcu_transfer_addresses`: two of three messages on a bus
that answers 2. -/
theorem ts_mcu_transfer_addresses_witness :
    ∃ stamped : List i2c_msg,
      ts_mcu_address 5 0x78
          [⟨1, 0, 3, [0, 1, 44]⟩, ⟨2, 1, 4, [9, 9, 9, 9]⟩, ⟨3, 0, 1, [7]⟩] 2 = some (stamped, 2) ∧
      stamped = [⟨0x78, 0, 3, [0, 1, 44]⟩, ⟨0x78, 1, 4, [9, 9, 9, 9]⟩, ⟨3, 0, 1, [7]⟩] ∧
      (ts_mcu_transfer 5 ⟨0x78, bus_fail 2⟩
          [⟨1, 0, 3, [0, 1, 44]⟩, ⟨2, 1, 4, [9, 9, 9, 9]⟩, ⟨3, 0, 1, [7]⟩] 2).map (fun r => r.1)
        = some 2 := by
  obtain ⟨st, h1, _, _, _, h5⟩ := ts_mcu_transfer_addresses 5 ⟨0x78, bus_fail 2⟩
    [⟨1, 0, 3, [0, 1, 44]⟩, ⟨2, 1, 4, [9, 9, 9, 9]⟩, ⟨3, 0, 1, [7]⟩] 2 (by decide) (by decide)
  refine ⟨st, h1, ?_, ?_⟩
  · have h : ts_mcu_address 5 0x78
        [⟨1, 0, 3, [0, 1, 44]⟩, ⟨2, 1, 4, [9, 9, 9, 9]⟩, ⟨3, 0, 1, [7]⟩] 2
        = some ([⟨0x78, 0, 3, [0, 1, 44]⟩, ⟨0x78, 1, 4, [9, 9, 9, 9]⟩, ⟨3, 0, 1, [7]⟩], 2) := by
      decide
    have h1' : ts_mcu_address 5 0x78
        [⟨1, 0, 3, [0, 1, 44]⟩, ⟨2, 1, 4, [9, 9, 9, 9]⟩, ⟨3, 0, 1, [7]⟩] 2 = some (st, 2) := h1
    rw [h] at h1'
    simpa using (congrArg (fun o => o.map Prod.fst) h1').symm
  · have h5' := congrArg (fun o => o.map (fun r => r.1)) h5
    simpa [bus_fail] using h5'

/-! ## Watchdog: the wire format -/

/-- The high byte of a 16-bit value as `ts_wdt_write` computes it. -/
theorem ts_wdt_hi_byte (N : Nat) (h : N < 65536) : ((N &&& 0xff00) >>> 8) % 256 = N >>> 8 := by
  have e : (N &&& 0xff00) >>> 8 = (N >>> 8) % 2 ^ 8 := by
    apply Nat.eq_of_testBit_eq
    intro i
    have c : (0xff00 : Nat) = (2 ^ 8 - 1) <<< 8 := by decide
    rw [Nat.testBit_shiftRight, Nat.testBit_and, c, Nat.testBit_shiftLeft,
      Nat.testBit_mod_two_pow, Nat.testBit_shiftRight, Nat.testBit_two_pow_sub_one]
    simp
    rw [Bool.and_comm]
  rw [e, Nat.shiftRight_eq_div_pow]
  omega

/-- The low byte of a value as `ts_wdt_write` computes it. -/
theorem ts_wdt_lo_byte (N : Nat) : (N &&& 0xff) % 256 = N &&& 0xff ∧ N &&& 0xff = N % 256 := by
  have e : N &&& 0xff = N % 2 ^ 8 := Nat.and_pow_two_sub_one_eq_mod N 8
  rw [e]
  omega

/-- The bytes built for a 16-bit value. -/
theorem ts_wdt_out_eq (N : Nat) (h : N < 65536) : ts_wdt_out N = [0, N >>> 8, N &&& 0xff] := by
  simp [ts_wdt_out, ts_wdt_hi_byte N h, (ts_wdt_lo_byte N).1]

/-- What one call of `ts_wdt_write` does, for any fuel of at least two: the
bus is handed the stamped message, the result is `!ret`, nothing else changes. -/
theorem ts_wdt_write_eq (fuel : Nat) (s : ts_wdt_state) (d : Nat) :
    ts_wdt_write (fuel + 2) s d
      = some
          (if (s.mcu.adapter.xfer s.mcu.adapter.log.length
                [{ ts_wdt_msg (d % 65536) with addr := s.mcu.client_addr }] 1).1 = 0
            then 1 else 0,
           { s with mcu := { s.mcu with adapter := { s.mcu.adapter with
              log := s.mcu.adapter.log
                ++ [([{ ts_wdt_msg (d % 65536) with addr := s.mcu.client_addr }], 1)] } } }) := by
  simp [ts_wdt_write, ts_mcu_transfer_one]

/-- The stamped message of `ts_wdt_write` is the frame of the wire protocol. -/
theorem ts_wdt_msg_frame (a N : Nat) (h : N < 65536) :
    (([{ ts_wdt_msg (N % 65536) with addr := a }], 1) : List i2c_msg × Int) = wdt_frame a N := by
  rw [Nat.mod_eq_of_lt h]
  simp [ts_wdt_msg, wdt_frame, ts_wdt_out_eq N h]

/-- C1: for every 16-bit value `N`, `ts_wdt_write N` hands the transport one
write message (flags 0) of length 3 with payload `[0, N >> 8, N & 0xff]`; byte 0
is zero and bytes 1-2 read as a big-endian 16-bit number give `N` back. -/
theorem ts_wdt_write_message (fuel : Nat) (s : ts_wdt_state) (N : Nat) (hN : N < 65536) :
    (ts_wdt_msg N).flags = 0 ∧ (ts_wdt_msg N).len = 3 ∧
    (ts_wdt_msg N).buf = [0, N >>> 8, N &&& 0xff] ∧
    (∃ r s1, ts_wdt_write (fuel + 2) s N = some (r, s1) ∧
      s1.mcu.adapter.log = s.mcu.adapter.log ++
        [([{ addr := s.mcu.client_addr, flags := 0, len := 3,
             buf := [0, N >>> 8, N &&& 0xff] }], 1)]) ∧
    N >>> 8 < 256 ∧ N &&& 0xff < 256 ∧ (N >>> 8) * 256 + (N &&& 0xff) = N := by
  have hlo := (ts_wdt_lo_byte N).2
  have hhi : N >>> 8 = N / 256 := by rw [Nat.shiftRight_eq_div_pow]
  refine ⟨rfl, rfl, ts_wdt_out_eq N hN, ?_, by omega, by omega, by omega⟩
  refine ⟨_, _, ts_wdt_write_eq fuel s N, ?_⟩
  have hf := ts_wdt_msg_frame s.mcu.client_addr N hN
  simp only [wdt_frame] at hf
  simp [hf]

/-- Witness for `ts_wdt_write_message`: the default feed, 300 deciseconds. -/
theorem ts_wdt_write_message_witness :
    (300 : Nat) < 65536 ∧ (ts_wdt_msg 300).buf = [0, 0x01, 0x2C] ∧
    (ts_wdt_write 2 wdt_sample 300).map (fun r => r.2.mcu.adapter.log)
      = some [([{ addr := 0x78, flags := 0, len := 3, buf := [0, 0x01, 0x2C] }], 1)] := by
  have h := ts_wdt_write_message 0 wdt_sample 300 (by decide)
  refine ⟨by decide, h.2.2.1, ?_⟩
  obtain ⟨r, s1, hw, hl⟩ := h.2.2.2.1
  have hw' : ts_wdt_write 2 wdt_sample 300 = some (r, s1) := hw
  rw [hw']
  simpa [wdt_sample, bus_ok] using hl

/-! ## Watchdog: the return value of a write -/

/-- The result of `ts_wdt_write` is `!ret`: it is 0 exactly when the transfer
result is non-zero and 1 exactly when the transfer result is 0. -/
theorem ts_wdt_write_ret (fuel : Nat) (s : ts_wdt_state) (d : Nat) :
    ∃ r s1, ts_wdt_write (fuel + 2) s d = some (r, s1) ∧
      (r = 0 ↔ (s.mcu.adapter.xfer s.mcu.adapter.log.length
                  [{ ts_wdt_msg (d % 65536) with addr := s.mcu.client_addr }] 1).1 ≠ 0) ∧
      (r = 1 ↔ (s.mcu.adapter.xfer s.mcu.adapter.log.length
                  [{ ts_wdt_msg (d % 65536) with addr := s.mcu.client_addr }] 1).1 = 0) := by
  refine ⟨_, _, ts_wdt_write_eq fuel s d, ?_, ?_⟩
  · split <;> simp_all
  · split <;> simp_all

/-- C2, at the failing input: on a bus where every transfer fails with -5
(`-EIO`), `ts_wdt_write`, `ts_wdt_start` and `ts_wdt_stop` all return 0, the
value they return when the transfer succeeds. -/
theorem ts_wdt_write_bus_error_returns_zero :
    (ts_wdt_write 2 { wdt_sample with mcu := ⟨0x78, bus_fail (-5)⟩ } 300).map Prod.fst = some 0 ∧
    (ts_wdt_start 2 { wdt_sample with mcu := ⟨0x78, bus_fail (-5)⟩ }).map Prod.fst = some 0 ∧
    (ts_wdt_stop 2 { wdt_sample with mcu := ⟨0x78, bus_fail (-5)⟩ }).map Prod.fst = some 0 ∧
    (ts_wdt_write 2 wdt_sample 300).map Prod.fst = some 0 ∧
    (ts_wdt_write 2 { wdt_sample with mcu := ⟨0x78, bus_fail 0⟩ } 300).map Prod.fst = some 1 := by
  refine ⟨?_, ?_, ?_, ?_, ?_⟩ <;> decide

/-! ## Watchdog: the operations -/

/-- One call of `ts_wdt_write` appends one frame to the history of the bus and
changes nothing else in the driver. -/
theorem ts_wdt_write_frame (fuel : Nat) (s : ts_wdt_state) (d : Nat) :
    ∃ r s1, ts_wdt_write (fuel + 2) s d = some (r, s1) ∧
      s1.mcu.adapter.log = s.mcu.adapter.log ++ [wdt_frame s.mcu.client_addr (d % 65536)] ∧
      s1.mcu.client_addr = s.mcu.client_addr ∧ s1.mcu.adapter.xfer = s.mcu.adapter.xfer ∧
      s1.ping_work = s.ping_work ∧ s1.timeout = s.timeout ∧ s1.nowayout = s.nowayout := by
  refine ⟨_, _, ts_wdt_write_eq fuel s d, ?_, rfl, rfl, rfl, rfl, rfl⟩
  have hf := ts_wdt_msg_frame s.mcu.client_addr (d % 65536) (Nat.mod_lt _ (by decide))
  simp only [Nat.mod_mod] at hf
  simp [hf]

/-- The function `ts_wdt_ping_disable` sends the default feed and leaves no
work pending. -/
theorem ts_wdt_ping_disable_frame (fuel : Nat) (s : ts_wdt_state) :
    ∃ s1, ts_wdt_ping_disable (fuel + 2) s = some s1 ∧
      s1.mcu.adapter.log = s.mcu.adapter.log ++ [wdt_frame s.mcu.client_addr 300] ∧
      s1.mcu.client_addr = s.mcu.client_addr ∧ s1.mcu.adapter.xfer = s.mcu.adapter.xfer ∧
      s1.ping_work = none ∧ s1.timeout = s.timeout ∧ s1.nowayout = s.nowayout := by
  obtain ⟨r, s1, hw, hl, ha, hx, _, ht, hn⟩ := ts_wdt_write_frame fuel s (TS_DEFAULT_TIMEOUT * 10)
  refine ⟨{ s1 with ping_work := none }, ?_, hl, ha, hx, rfl, ht, hn⟩
  simp [ts_wdt_ping_disable, hw, cancel_delayed_work_sync]

/-- The function `ts_wdt_ping_enable` sends the default feed and leaves the
work pending. -/
theorem ts_wdt_ping_enable_frame (k : kernel_cfg) (fuel : Nat) (s : ts_wdt_state) :
    ∃ s1, ts_wdt_ping_enable k (fuel + 2) s = some s1 ∧
      s1.mcu.adapter.log = s.mcu.adapter.log ++ [wdt_frame s.mcu.client_addr 300] ∧
      s1.mcu.client_addr = s.mcu.client_addr ∧ s1.mcu.adapter.xfer = s.mcu.adapter.xfer ∧
      s1.ping_work = schedule_delayed_work s.ping_work
        (k.round_jiffies_relative (TS_DEFAULT_TIMEOUT * k.HZ / 2)) ∧
      s1.timeout = s.timeout ∧ s1.nowayout = s.nowayout := by
  obtain ⟨r, s1, hw, hl, ha, hx, hp, ht, hn⟩ := ts_wdt_write_frame fuel s (TS_DEFAULT_TIMEOUT * 10)
  have he : ∃ s2, ts_wdt_ping_enable k (fuel + 2) s = some s2 ∧ s2.mcu = s1.mcu ∧
      s2.ping_work = schedule_delayed_work s1.ping_work
        (k.round_jiffies_relative (TS_DEFAULT_TIMEOUT * k.HZ / 2)) ∧
      s2.timeout = s1.timeout ∧ s2.nowayout = s1.nowayout :=
    ⟨⟨s1.mcu, schedule_delayed_work s1.ping_work
        (k.round_jiffies_relative (TS_DEFAULT_TIMEOUT * k.HZ / 2)), s1.timeout, s1.nowayout⟩,
      by simp only [ts_wdt_ping_enable, hw], rfl, rfl, rfl, rfl⟩
  obtain ⟨s2, h2, hm, hq, ht2, hn2⟩ := he
  exact ⟨s2, h2, by rw [hm]; exact hl, by rw [hm, ha], by rw [hm, hx], by rw [hq, hp],
    ht2.trans ht, hn2.trans hn⟩

/-- The function `ts_wdt_start` sends the default feed, then the configured
timeout in deciseconds reduced to 16 bits, and leaves no work pending. -/
theorem ts_wdt_start_frame (fuel : Nat) (s : ts_wdt_state) :
    ∃ r s1, ts_wdt_start (fuel + 2) s = some (r, s1) ∧
      s1.mcu.adapter.log = s.mcu.adapter.log ++
        [wdt_frame s.mcu.client_addr 300,
         wdt_frame s.mcu.client_addr (s.timeout * 10 % 2 ^ 32 % 65536)] ∧
      s1.mcu.client_addr = s.mcu.client_addr ∧ s1.mcu.adapter.xfer = s.mcu.adapter.xfer ∧
      s1.ping_work = none ∧ s1.timeout = s.timeout ∧ s1.nowayout = s.nowayout := by
  obtain ⟨s0, h0, hl0, ha0, hx0, hp0, ht0, hn0⟩ := ts_wdt_ping_disable_frame fuel s
  obtain ⟨r, s1, hw, hl, ha, hx, hp, ht, hn⟩ := ts_wdt_write_frame fuel s0 (s0.timeout * 10 % 2 ^ 32)
  refine ⟨r, s1, ?_, ?_, ha.trans ha0, hx.trans hx0, hp.trans hp0, ht.trans ht0, hn.trans hn0⟩
  · simp only [ts_wdt_start, h0]
    exact hw
  · rw [hl, hl0, ha0, ht0]
    simp

/-- With no work pending every event leaves no work pending, and the expiry of
the timer changes nothing at all. -/
theorem wdt_step_idle (k : kernel_cfg) (fuel : Nat) (s : ts_wdt_state) (e : wdt_event)
    (h : s.ping_work = none) :
    ∃ s1, wdt_step k (fuel + 2) s e = some s1 ∧ s1.ping_work = none ∧
      (e = wdt_event.wake → s1 = s) := by
  cases e with
  | start =>
    obtain ⟨r, s1, hs, _, _, _, hp, _, _⟩ := ts_wdt_start_frame fuel s
    exact ⟨s1, by simp [wdt_step, hs], hp, by simp⟩
  | stop =>
    obtain ⟨r, s1, hs, _, _, _, hp, _, _⟩ := ts_wdt_write_frame fuel s 3
    exact ⟨s1, by simp [wdt_step, ts_wdt_stop, hs], hp.trans h, by simp⟩
  | set_timeout t => exact ⟨_, rfl, h, by simp⟩
  | wake => exact ⟨s, by simp [wdt_step, h], h, fun _ => rfl⟩

/-- With no work pending, a run of events ends with no work pending, and the
timer expiries in it contribute nothing. -/
theorem wdt_run_idle (k : kernel_cfg) (fuel : Nat) :
    ∀ (es : List wdt_event) (s : ts_wdt_state), s.ping_work = none →
      ∃ s1, wdt_run k (fuel + 2) s es = some s1 ∧ s1.ping_work = none ∧
        wdt_run k (fuel + 2) s (es.filter (fun e => e ≠ wdt_event.wake)) = some s1 := by
  intro es
  induction es with
  | nil => intro s h; exact ⟨s, rfl, h, rfl⟩
  | cons e es ih =>
    intro s h
    obtain ⟨s1, hs, hp, hw⟩ := wdt_step_idle k fuel s e h
    obtain ⟨s2, hr, hp2, hf⟩ := ih s1 hp
    refine ⟨s2, by simp [wdt_run, hs, hr], hp2, ?_⟩
    by_cases he : e = wdt_event.wake
    · rw [List.filter_cons_of_neg (by simp [he]), ← hw he]
      exact hf
    · rw [List.filter_cons_of_pos (by simp [he])]
      simp only [wdt_run, hs]
      exact hf

/-- C4: from every driver state and on every bus, `ts_wdt_start` returns with
no keep-alive work pending; the work is cancelled by `ts_wdt_ping_disable`
inside `ts_wdt_start`, before its own write; and in every later run of the
driver (start, stop, set-timeout and timer expiries in any order) no work is
pending, a timer expiry changes nothing, and the run sends exactly what it
sends with the expiries left out: no autonomous feed is sent. -/
theorem ts_wdt_start_cancels_keepalive (k : kernel_cfg) (fuel : Nat) (s : ts_wdt_state) :
    ∃ r s0 s1, ts_wdt_ping_disable (fuel + 2) s = some s0 ∧ s0.ping_work = none ∧
      ts_wdt_write (fuel + 2) s0 ((s0.timeout * 10) % 2 ^ 32) = some (r, s1) ∧
      ts_wdt_start (fuel + 2) s = some (r, s1) ∧ s1.ping_work = none ∧
      ∀ es : List wdt_event, ∃ s2, wdt_run k (fuel + 2) s1 es = some s2 ∧
        s2.ping_work = none ∧
        wdt_step k (fuel + 2) s2 wdt_event.wake = some s2 ∧
        wdt_run k (fuel + 2) s1 (es.filter (fun e => e ≠ wdt_event.wake)) = some s2 := by
  obtain ⟨s0, h0, _, _, _, hp0, _, _⟩ := ts_wdt_ping_disable_frame fuel s
  obtain ⟨r, s1, hw, _, _, _, hp, _, _⟩ := ts_wdt_write_frame fuel s0 (s0.timeout * 10 % 2 ^ 32)
  have hp1 : s1.ping_work = none := hp.trans hp0
  have hst : ts_wdt_start (fuel + 2) s = some (r, s1) := by
    simp only [ts_wdt_start, h0]
    exact hw
  refine ⟨r, s0, s1, h0, hp0, hw, hst, hp1, ?_⟩
  intro es
  obtain ⟨s2, hr, hp2, hf⟩ := wdt_run_idle k fuel es s1 hp1
  exact ⟨s2, hr, hp2, by simp [wdt_step, hp2], hf⟩

/-! ## Watchdog: autonomous keep-alive -/

/-- When the timer of a pending work expires, the work sends the default feed
and is pending again with the default delay. -/
theorem wdt_step_wake (k : kernel_cfg) (fuel : Nat) (s : ts_wdt_state) (d : Nat)
    (h : s.ping_work = some d) :
    ∃ s1, wdt_step k (fuel + 2) s wdt_event.wake = some s1 ∧
      s1.mcu.adapter.log = s.mcu.adapter.log ++ [wdt_frame s.mcu.client_addr 300] ∧
      s1.mcu.client_addr = s.mcu.client_addr ∧
      s1.ping_work = some (k.round_jiffies_relative (TS_DEFAULT_TIMEOUT * k.HZ / 2)) := by
  obtain ⟨s1, h1, hl, ha, _, hp, _, _⟩ :=
    ts_wdt_ping_enable_frame k fuel ⟨s.mcu, none, s.timeout, s.nowayout⟩
  refine ⟨s1, ?_, hl, ha, hp⟩
  simp only [wdt_step, h, ts_wdt_ping_work]
  exact h1

/-- A run of timer expiries from a state with the work pending: every expiry
sends one default feed, and the work is pending at the end. -/
theorem wdt_run_wakes (k : kernel_cfg) (fuel : Nat) :
    ∀ (n : Nat) (s : ts_wdt_state) (d : Nat), s.ping_work = some d →
      ∃ sn d1, wdt_run k (fuel + 2) s (List.replicate n wdt_event.wake) = some sn ∧
        sn.ping_work = some d1 ∧
        sn.mcu.adapter.log
          = s.mcu.adapter.log ++ List.replicate n (wdt_frame s.mcu.client_addr 300) := by
  intro n
  induction n with
  | zero => intro s d h; exact ⟨s, d, rfl, h, by simp⟩
  | succ n ih =>
    intro s d h
    obtain ⟨s1, h1, hl, ha, hp⟩ := wdt_step_wake k fuel s d h
    obtain ⟨sn, d1, hr, hpn, hln⟩ := ih s1 _ hp
    refine ⟨sn, d1, ?_, hpn, ?_⟩
    · simp only [List.replicate_succ, wdt_run, h1]
      exact hr
    · rw [hln, hl, ha, List.replicate_succ]
      simp

/-- C5: entering the keep-alive mode with `ts_wdt_ping_enable` sends the
command 300 deciseconds, payload `[0, 0x01, 0x2C]`, at once and queues one
wake with the delay `TS_DEFAULT_TIMEOUT * HZ / 2` (15 seconds) handed to
`round_jiffies_relative`; a probe that succeeds ends this way; every wake sends
the same command again and queues the next wake with the same delay, whatever
the bus answers, so that after any number of wakes a wake is pending. -/
theorem ts_wdt_keepalive (k : kernel_cfg) (fuel : Nat) (s : ts_wdt_state) (nowayout : Bool)
    (hs : s.ping_work = none) :
    wdt_frame s.mcu.client_addr (TS_DEFAULT_TIMEOUT * 10)
      = ([{ addr := s.mcu.client_addr, flags := 0, len := 3, buf := [0, 0x01, 0x2C] }], 1) ∧
    TS_DEFAULT_TIMEOUT * k.HZ / 2 = 15 * k.HZ ∧
    (∃ s1, ts_wdt_ping_enable k (fuel + 2) s = some s1 ∧
      s1.mcu.adapter.log
        = s.mcu.adapter.log ++ [wdt_frame s.mcu.client_addr (TS_DEFAULT_TIMEOUT * 10)] ∧
      s1.ping_work = some (k.round_jiffies_relative (TS_DEFAULT_TIMEOUT * k.HZ / 2))) ∧
    (∃ s1, ts_wdt_probe k (fuel + 2) false true 0 nowayout s.mcu = some (0, some s1) ∧
      s1.mcu.adapter.log
        = s.mcu.adapter.log ++ [wdt_frame s.mcu.client_addr (TS_DEFAULT_TIMEOUT * 10)] ∧
      s1.ping_work = some (k.round_jiffies_relative (TS_DEFAULT_TIMEOUT * k.HZ / 2))) ∧
    (∀ d : Nat, ∃ s1,
      wdt_step k (fuel + 2) ⟨s.mcu, some d, s.timeout, s.nowayout⟩ wdt_event.wake = some s1 ∧
      s1.mcu.adapter.log
        = s.mcu.adapter.log ++ [wdt_frame s.mcu.client_addr (TS_DEFAULT_TIMEOUT * 10)] ∧
      s1.ping_work = some (k.round_jiffies_relative (TS_DEFAULT_TIMEOUT * k.HZ / 2))) ∧
    (∀ d n : Nat, ∃ sn d1,
      wdt_run k (fuel + 2) ⟨s.mcu, some d, s.timeout, s.nowayout⟩
          (List.replicate n wdt_event.wake) = some sn ∧
      sn.ping_work = some d1 ∧
      sn.mcu.adapter.log = s.mcu.adapter.log ++
        List.replicate n (wdt_frame s.mcu.client_addr (TS_DEFAULT_TIMEOUT * 10))) := by
  refine ⟨rfl, ?_, ?_, ?_, ?_, ?_⟩
  · simp only [TS_DEFAULT_TIMEOUT]
    omega
  · obtain ⟨s1, h1, hl, _, _, hp, _, _⟩ := ts_wdt_ping_enable_frame k fuel s
    exact ⟨s1, h1, hl, by rw [hp, hs]; rfl⟩
  · obtain ⟨s1, h1, hl, _, _, hp, _, _⟩ :=
      ts_wdt_ping_enable_frame k fuel ⟨s.mcu, none, TS_DEFAULT_TIMEOUT, nowayout⟩
    refine ⟨s1, ?_, hl, hp⟩
    simp only [ts_wdt_probe, h1]
    simp
  · intro d
    obtain ⟨s1, h1, hl, _, hp⟩ :=
      wdt_step_wake k fuel ⟨s.mcu, some d, s.timeout, s.nowayout⟩ d rfl
    exact ⟨s1, h1, hl, hp⟩
  · intro d n
    exact wdt_run_wakes k fuel n ⟨s.mcu, some d, s.timeout, s.nowayout⟩ d rfl

/-- Witness for `ts_wdt_keepalive`: on a bus that fails every transfer, with
100 ticks per second, the wake is queued 1500 ticks ahead and three wakes send
three feeds. -/
theorem ts_wdt_keepalive_witness :
    wdt_fresh_failing.ping_work = none ∧
    (ts_wdt_ping_enable cfg100 2 wdt_fresh_failing).map (fun s1 => (wire s1, s1.ping_work))
      = some ([[0, 0x01, 0x2C]], some 1500) ∧
    ∃ sn d1, wdt_run cfg100 2 ⟨wdt_fresh_failing.mcu, some 1500, 30, false⟩
        (List.replicate 3 wdt_event.wake) = some sn ∧ sn.ping_work = some d1 := by
  have h := ts_wdt_keepalive cfg100 0 wdt_fresh_failing false rfl
  refine ⟨rfl, by decide, ?_⟩
  obtain ⟨sn, d1, hr, hp, _⟩ := h.2.2.2.2.2 1500 3
  exact ⟨sn, d1, hr, hp⟩

/-! ## Watchdog: set-timeout, start and stop -/

/-- C3, as stated, fails: `ts_set_timeout 1` followed by `ts_wdt_start` puts
two payloads on the wire, the default feed `[0, 0x01, 0x2C]` first and
`[0, 0, 10]` second, not the single payload `[0, 0, 10]`. -/
theorem set_timeout_start_puts_two_frames :
    (ts_wdt_start 2 (ts_set_timeout wdt_sample 1).2).map (fun r => wire r.2)
      = some [[0, 0x01, 0x2C], [0, 0, 10]] ∧
    (ts_wdt_start 2 (ts_set_timeout wdt_sample 1).2).map (fun r => wire r.2)
      ≠ some [[0, (10 * 1) >>> 8, (10 * 1) &&& 0xff]] := by
  constructor <;> decide

/-- C3, amended: for every timeout `t` in 1..=6553, `ts_set_timeout t` sends
nothing and the following `ts_wdt_start` sends exactly two writes, first the
default feed of 300 deciseconds issued by `ts_wdt_ping_disable`, then the
command `10 * t` with payload `[0, (10*t) >> 8, (10*t) & 0xff]`; `10 * t` fits
the 16-bit argument and is not truncated. -/
theorem ts_set_timeout_then_start (fuel : Nat) (s : ts_wdt_state) (t : Nat)
    (h1 : 1 ≤ t) (h2 : t ≤ 6553) :
    (ts_set_timeout s t).2.mcu.adapter.log = s.mcu.adapter.log ∧
    (∃ r s1, ts_wdt_start (fuel + 2) (ts_set_timeout s t).2 = some (r, s1) ∧
      s1.mcu.adapter.log = s.mcu.adapter.log ++
        [([{ addr := s.mcu.client_addr, flags := 0, len := 3, buf := [0, 0x01, 0x2C] }], 1),
         ([{ addr := s.mcu.client_addr, flags := 0, len := 3,
             buf := [0, (10 * t) >>> 8, (10 * t) &&& 0xff] }], 1)]) ∧
    5 ≤ 10 * t ∧ 10 * t < 65536 ∧
    ((10 * t) >>> 8) * 256 + ((10 * t) &&& 0xff) = 10 * t := by
  have hlo := (ts_wdt_lo_byte (10 * t)).2
  have hhi : (10 * t) >>> 8 = 10 * t / 256 := by rw [Nat.shiftRight_eq_div_pow]
  refine ⟨rfl, ?_, by omega, by omega, by omega⟩
  obtain ⟨r, s1, hs, hl, _⟩ := ts_wdt_start_frame fuel (ts_set_timeout s t).2
  refine ⟨r, s1, hs, ?_⟩
  have e : t * 10 % 2 ^ 32 % 65536 = 10 * t := by omega
  rw [hl]
  simp only [ts_set_timeout, e]
  rfl

/-- Witness for `ts_set_timeout_then_start`: the largest timeout, 6553 s. -/
theorem ts_set_timeout_then_start_witness :
    (1 : Nat) ≤ 6553 ∧ (6553 : Nat) ≤ 6553 ∧
    (ts_wdt_start 2 (ts_set_timeout wdt_sample 6553).2).map (fun r => wire r.2)
      = some [[0, 0x01, 0x2C], [0, 0xff, 0xfa]] := by
  have h := ts_set_timeout_then_start 0 wdt_sample 6553 (by decide) (by decide)
  refine ⟨by decide, by decide, ?_⟩
  obtain ⟨r, s1, hs, hl⟩ := h.2.1
  have hs' : ts_wdt_start 2 (ts_set_timeout wdt_sample 6553).2 = some (r, s1) := hs
  rw [hs']
  simp only [Option.map_some', wire, hl]
  decide

/-- C6, as stated, fails: with no-way-out disabled, after `ts_wdt_start` and
`ts_wdt_stop` no wake is pending, the stop sent the single payload `[0, 0, 3]`,
and a later expiry of the timer sends nothing. -/
theorem ts_wdt_stop_leaves_keepalive_off :
    wdt_sample.nowayout = false ∧
    ((ts_wdt_start 2 wdt_sample).bind (fun r => ts_wdt_stop 2 r.2)).map
        (fun r => (r.2.ping_work, wire r.2))
      = some (none, [[0, 0x01, 0x2C], [0, 0x01, 0x2C], [0, 0, 3]]) ∧
    (wdt_run cfg100 2 wdt_sample
        [wdt_event.start, wdt_event.stop, wdt_event.wake, wdt_event.wake]).map
        (fun s => (s.ping_work, wire s))
      = some (none, [[0, 0x01, 0x2C], [0, 0x01, 0x2C], [0, 0, 3]]) := by
  refine ⟨rfl, ?_, ?_⟩ <;> decide

/-- C6, amended: whatever the no-way-out setting, `ts_wdt_stop` sends exactly
one command, the value 3 with payload `[0, 0, 3]`, and leaves the keep-alive
work as it found it: it queues no wake, so after `ts_wdt_start` and `ts_wdt_stop`
no wake is pending and a later expiry of the timer sends nothing. -/
theorem ts_wdt_stop_sends_three (k : kernel_cfg) (fuel : Nat) (s : ts_wdt_state) :
    (∃ r s1, ts_wdt_stop (fuel + 2) s = some (r, s1) ∧
      s1.mcu.adapter.log = s.mcu.adapter.log ++
        [([{ addr := s.mcu.client_addr, flags := 0, len := 3, buf := [0, 0, 3] }], 1)] ∧
      s1.ping_work = s.ping_work ∧ s1.timeout = s.timeout ∧ s1.nowayout = s.nowayout) ∧
    (∃ r1 s1 r2 s2, ts_wdt_start (fuel + 2) s = some (r1, s1) ∧
      ts_wdt_stop (fuel + 2) s1 = some (r2, s2) ∧ s2.ping_work = none ∧
      wdt_step k (fuel + 2) s2 wdt_event.wake = some s2) := by
  constructor
  · obtain ⟨r, s1, hw, hl, _, _, hp, ht, hn⟩ := ts_wdt_write_frame fuel s 3
    exact ⟨r, s1, hw, hl, hp, ht, hn⟩
  · obtain ⟨r1, s1, h1, _, _, _, hp1, _, _⟩ := ts_wdt_start_frame fuel s
    obtain ⟨r2, s2, h2, _, _, _, hp2, _, _⟩ := ts_wdt_write_frame fuel s1 3
    have hp : s2.ping_work = none := hp2.trans hp1
    exact ⟨r1, s1, r2, s2, h1, h2, hp, by simp [wdt_step, hp]⟩

/-- The operation `ts_set_timeout` on its own: it returns 0, stores the value,
sends nothing and leaves the keep-alive work and the no-way-out status alone. -/
theorem ts_set_timeout_effect (s : ts_wdt_state) (seconds : Nat) :
    (ts_set_timeout s seconds).1 = 0 ∧
    (ts_set_timeout s seconds).2.timeout = seconds ∧
    (ts_set_timeout s seconds).2.mcu.adapter.log = s.mcu.adapter.log ∧
    (ts_set_timeout s seconds).2.ping_work = s.ping_work ∧
    (ts_set_timeout s seconds).2.nowayout = s.nowayout :=
  ⟨rfl, rfl, rfl, rfl, rfl⟩

/-- C7: a set-timeout request, made through the range check of the watchdog
core with the bounds 1 and 6553 that `ts_wdt_wdd` declares, fails with
`InvalidTimeout` and leaves the configured timeout (and the wire and the
keep-alive work) unchanged for every value outside 1..=6553, 0 and everything
above 6553; for every value in 1..=6553 it succeeds with `ts_set_timeout`
returning 0, the configured timeout becomes that value, no wire command is sent
and the keep-alive work is not touched. -/
theorem watchdog_set_timeout_range (s : ts_wdt_state) (seconds : Nat) :
    ts_wdt_wdd_min_timeout = 1 ∧ ts_wdt_wdd_max_timeout = 6553 ∧
    (seconds < 1 ∨ 6553 < seconds →
      (watchdog_set_timeout s seconds).1 = Except.error wdt_error.InvalidTimeout ∧
      (watchdog_set_timeout s seconds).2.timeout = s.timeout ∧
      (watchdog_set_timeout s seconds).2.mcu.adapter.log = s.mcu.adapter.log ∧
      (watchdog_set_timeout s seconds).2.ping_work = s.ping_work) ∧
    (1 ≤ seconds ∧ seconds ≤ 6553 →
      (watchdog_set_timeout s seconds).1 = Except.ok 0 ∧
      (watchdog_set_timeout s seconds).2 = (ts_set_timeout s seconds).2 ∧
      (watchdog_set_timeout s seconds).2.timeout = seconds ∧
      (watchdog_set_timeout s seconds).2.mcu.adapter.log = s.mcu.adapter.log ∧
      (watchdog_set_timeout s seconds).2.ping_work = s.ping_work) := by
  refine ⟨rfl, rfl, ?_, ?_⟩
  · intro h
    have hn : ¬ (ts_wdt_wdd_min_timeout ≤ seconds ∧ seconds ≤ ts_wdt_wdd_max_timeout) := by
      simp only [ts_wdt_wdd_min_timeout, ts_wdt_wdd_max_timeout]
      omega
    have e : watchdog_set_timeout s seconds = (Except.error wdt_error.InvalidTimeout, s) :=
      if_neg hn
    rw [e]
    exact ⟨rfl, rfl, rfl, rfl⟩
  · intro h
    have hp : ts_wdt_wdd_min_timeout ≤ seconds ∧ seconds ≤ ts_wdt_wdd_max_timeout := by
      simp only [ts_wdt_wdd_min_timeout, ts_wdt_wdd_max_timeout]
      exact h
    have e : watchdog_set_timeout s seconds
        = (Except.ok (ts_set_timeout s seconds).1, (ts_set_timeout s seconds).2) :=
      if_pos hp
    rw [e]
    exact ⟨rfl, rfl, rfl, rfl, rfl⟩

/-- Witness for `watchdog_set_timeout_range`: 0 and 6554 are refused and the
timeout stays 30; 6553 is accepted and stored. -/
theorem watchdog_set_timeout_range_witness :
    ((0 : Nat) < 1 ∨ 6553 < (0 : Nat)) ∧
    (watchdog_set_timeout wdt_sample 0).1 = Except.error wdt_error.InvalidTimeout ∧
    (watchdog_set_timeout wdt_sample 0).2.timeout = 30 ∧
    (watchdog_set_timeout wdt_sample 6554).1 = Except.error wdt_error.InvalidTimeout ∧
    (watchdog_set_timeout wdt_sample 6554).2.timeout = 30 ∧
    (1 ≤ (6553 : Nat) ∧ (6553 : Nat) ≤ 6553) ∧
    (watchdog_set_timeout wdt_sample 6553).1 = Except.ok 0 ∧
    (watchdog_set_timeout wdt_sample 6553).2.timeout = 6553 := by
  have h0 := (watchdog_set_timeout_range wdt_sample 0).2.2.1 (Or.inl (by decide))
  have h1 := (watchdog_set_timeout_range wdt_sample 6554).2.2.1 (Or.inr (by decide))
  have h2 := (watchdog_set_timeout_range wdt_sample 6553).2.2.2 ⟨by decide, by decide⟩
  exact ⟨Or.inl (by decide), h0.1, h0.2.1, h1.1, h1.2.1, ⟨by decide, by decide⟩, h2.1, h2.2.2.1⟩

/-! ## Power input: the voltage decode -/

/-- What one call of `ts_psu_read_voltage_in` does, for any fuel of at least
two: one stamped read of four bytes; `*value` is written only when the
transfer result is 1. -/
theorem ts_psu_read_voltage_in_eq (fuel : Nat) (mcu : ts_mcu_dev) (value : Int) :
    ts_psu_read_voltage_in (fuel + 2) mcu value
      = some
          ((mcu.adapter.xfer mcu.adapter.log.length
              [⟨mcu.client_addr, I2C_M_RD, 4, [0, 0, 0, 0]⟩] 1).1,
           (if (mcu.adapter.xfer mcu.adapter.log.length
                  [⟨mcu.client_addr, I2C_M_RD, 4, [0, 0, 0, 0]⟩] 1).1 ≠ 1 then value
            else ts_psu_decode
              (match (mcu.adapter.xfer mcu.adapter.log.length
                  [⟨mcu.client_addr, I2C_M_RD, 4, [0, 0, 0, 0]⟩] 1).2 with
                | m :: _ => m.buf
                | [] => [0, 0, 0, 0])),
           { mcu with adapter := { mcu.adapter with
              log := mcu.adapter.log ++ [([⟨mcu.client_addr, I2C_M_RD, 4, [0, 0, 0, 0]⟩], 1)] } }) := by
  simp only [ts_psu_read_voltage_in, ts_mcu_transfer_one]
  split <;> simp_all

/-- The 16-bit raw reading assembled from bytes 2 and 3. -/
theorem ts_psu_raw16 (b2 b3 : Nat) (h2 : b2 < 256) (h3 : b3 < 256) :
    ((b3 % 256) <<< 8) ||| (b2 % 256) = b3 * 256 + b2 := by
  have h := Nat.mul_add_lt_is_or (show b2 < 2 ^ 8 from h2) b3
  rw [Nat.mod_eq_of_lt h2, Nat.mod_eq_of_lt h3, Nat.shiftLeft_eq, Nat.mul_comm b3 (2 ^ 8), ← h]

/-- Up to a raw reading of 510 the product fits an `int` and the decode is the
exact quotient. -/
theorem ts_psu_decode_exact (b0 b1 b2 b3 : Nat) (h2 : b2 < 256) (h3 : b3 < 256)
    (h : b3 * 256 + b2 ≤ 510) :
    ts_psu_decode [b0, b1, b2, b3] = (((b3 * 256 + b2 : Nat) : Int) * 4203336) / 100 := by
  have e : ([b0, b1, b2, b3].getD 3 0 % 256) <<< 8 ||| ([b0, b1, b2, b3].getD 2 0 % 256)
      = b3 * 256 + b2 := ts_psu_raw16 b2 b3 h2 h3
  unfold ts_psu_decode
  rw [e]
  have hw : wrap_int32 (((b3 * 256 + b2 : Nat) : Int) * 4203336)
      = ((b3 * 256 + b2 : Nat) : Int) * 4203336 := by
    unfold wrap_int32
    norm_num
    omega
  rw [hw, Int.tdiv_eq_ediv (by omega) (by omega)]

/-- From a raw reading of 511 on the product does not fit an `int`, and the
decode falls below the exact quotient. -/
theorem ts_psu_decode_overflow (b0 b1 b2 b3 : Nat) (h2 : b2 < 256) (h3 : b3 < 256)
    (h : 511 ≤ b3 * 256 + b2) :
    ts_psu_decode [b0, b1, b2, b3] < (((b3 * 256 + b2 : Nat) : Int) * 4203336) / 100 := by
  have e : ([b0, b1, b2, b3].getD 3 0 % 256) <<< 8 ||| ([b0, b1, b2, b3].getD 2 0 % 256)
      = b3 * 256 + b2 := ts_psu_raw16 b2 b3 h2 h3
  unfold ts_psu_decode
  rw [e]
  generalize hv : ((b3 * 256 + b2 : Nat) : Int) = v
  have hv511 : (511 : Int) ≤ v := by rw [← hv]; exact_mod_cast h
  generalize hx : wrap_int32 (v * 4203336) = x
  have hxlt : x < 2147483648 := by
    rw [← hx]
    unfold wrap_int32
    norm_num
    omega
  have hq : (21479046 : Int) ≤ v * 4203336 / 100 := by omega
  have ht : x.tdiv 100 ≤ 21474836 := by
    rcases le_or_lt 0 x with h0 | h0
    · rw [Int.tdiv_eq_ediv h0 (by omega)]
      omega
    · have hn : (-x).tdiv 100 = -(x.tdiv 100) := Int.neg_tdiv x 100
      have hp : 0 ≤ (-x).tdiv 100 := Int.tdiv_nonneg (by omega) (by omega)
      omega
  omega

/-- C9, at the failing input: the raw reading 511 (bytes `[0, 0, 0xff, 0x01]`),
inside the 10-bit range of the ADC, is read successfully and stored as
-21470626, while the exact quotient `(511 * 4203336) / 100` is 21479046. -/
theorem ts_psu_read_voltage_in_overflow :
    (ts_psu_read_voltage_in 2 ⟨0x78, bus_ok [0, 0, 0xff, 0x01]⟩ 0).map (fun r => (r.1, r.2.1))
      = some (1, -21470626) ∧
    (((0x01 * 256 + 0xff : Nat) : Int) * 4203336) / 100 = 21479046 ∧
    (ts_psu_read_voltage_in 2 ⟨0x78, bus_ok [0, 0, 0xff, 0x03]⟩ 0).map (fun r => (r.1, r.2.1))
      = some (1, 50454) ∧
    (((0x03 * 256 + 0xff : Nat) : Int) * 4203336) / 100 = 43000127 := by
  refine ⟨?_, ?_, ?_, ?_⟩ <;> decide

/-- C10, as stated, fails: with raw bytes `[0x00, 0x00, 0x34, 0x01]` read
successfully the value stored is 12946274, not 12946269. -/
theorem psu_test_vector_stored_value :
    (ts_psu_read_voltage_in 2 ⟨0x78, bus_ok [0x00, 0x00, 0x34, 0x01]⟩ 0).map
        (fun r => (r.1, r.2.1)) = some (1, 12946274) ∧
    (ts_psu_read_voltage_in 2 ⟨0x78, bus_ok [0x00, 0x00, 0x34, 0x01]⟩ 0).map
        (fun r => (r.1, r.2.1)) ≠ some (1, 12946269) := by
  constructor <;> decide

/-- C10, amended: when the transfer succeeds with raw bytes
`[0x00, 0x00, 0x34, 0x01]` (raw value 0x0134 = 308), `ts_psu_read_voltage_in`
returns 1 and stores `(308 * 4203336) / 100 = 12946274` in `*value`. -/
theorem ts_psu_read_voltage_in_vector (fuel : Nat) (mcu : ts_mcu_dev) (value : Int)
    (m : i2c_msg) (rest : List i2c_msg)
    (hret : (mcu.adapter.xfer mcu.adapter.log.length
        [⟨mcu.client_addr, I2C_M_RD, 4, [0, 0, 0, 0]⟩] 1).1 = 1)
    (hraw : (mcu.adapter.xfer mcu.adapter.log.length
        [⟨mcu.client_addr, I2C_M_RD, 4, [0, 0, 0, 0]⟩] 1).2 = m :: rest)
    (hbuf : m.buf = [0x00, 0x00, 0x34, 0x01]) :
    (∃ mcu1, ts_psu_read_voltage_in (fuel + 2) mcu value = some (1, 12946274, mcu1)) ∧
    (0x01 * 256 + 0x34 : Int) = 308 ∧ (308 * 4203336 : Int) / 100 = 12946274 := by
  have h := ts_psu_read_voltage_in_eq fuel mcu value
  rw [hret, hraw] at h
  simp only [hbuf] at h
  exact ⟨⟨_, h⟩, by decide, by decide⟩

/-- Witness for `ts_psu_read_voltage_in_vector`: a bus that answers every read
with the four bytes of the test vector. -/
theorem ts_psu_read_voltage_in_vector_witness :
    ∃ mcu1, ts_psu_read_voltage_in 2 ⟨0x48, bus_ok [0x00, 0x00, 0x34, 0x01]⟩ (-1)
      = some (1, 12946274, mcu1) :=
  (ts_psu_read_voltage_in_vector 0 ⟨0x48, bus_ok [0x00, 0x00, 0x34, 0x01]⟩ (-1)
    ⟨0x48, I2C_M_RD, 4, [0x00, 0x00, 0x34, 0x01]⟩ [] rfl rfl rfl).1

end TsMcu
